import Mathlib

/-!
Shallow embedding of the multi-seed experiment launcher in `dso/run.py`:
the seed plan builder, worker-count resolution, benchmark-override routing,
parallel-safety configuration corrections, the replicate executor's result
post-processing (`train_dso`), the serial/parallel dispatch loop of `main`,
and the append-mode summary-sink writes (`DataFrame.to_csv(..., mode='a',
header=not os.path.exists(path))`).
-/

namespace DSORun

/-- A scalar value stored in a replicate's result dictionary (rewards,
expression strings, or the non-serializable program object). -/
inductive Value where
  | num : Int → Value
  | str : String → Value
  | prog : Value
deriving DecidableEq

/-- A replicate result record: the dict returned by `model.train()`,
keys to values. -/
abbrev ResultRec := List (String × Value)

/-- `config["task"]`: the fields of the task sub-config touched by `run.py`. -/
structure TaskConfig where
  task_type : String
  dataset : Option String
  env : Option String
deriving DecidableEq

/-- `config["experiment"]`: the fields of the experiment sub-config touched
by `run.py`. -/
structure ExperimentConfig where
  seed : Option Int
  starting_seed : Option Int
  cmd : Option String
  timestamp : Option String
deriving DecidableEq

/-- `config["training"]`: the fields of the training sub-config touched
by `run.py`. -/
structure TrainingConfig where
  verbose : Bool
  n_cores_batch : Int
deriving DecidableEq

/-- The materialized experiment configuration, restricted to the fields
`run.py` reads or writes. -/
structure Config where
  task : TaskConfig
  experiment : ExperimentConfig
  training : TrainingConfig
deriving DecidableEq

/-- The command-line arguments of `main` that drive the launcher. -/
structure CliArgs where
  runs : Int
  n_cores_task : Int
  seed : Option Int
  benchmark : Option String
deriving DecidableEq

deriving instance DecidableEq for Except

/-- The warnings `main` prints when it auto-corrects a configuration. -/
inductive Warning where
  | overwriteSeed
  | clampCores
  | forceVerboseOff
  | forceSingleBatch
deriving DecidableEq

/-- Benchmark-override routing (`run.py` lines 55-64): `--b` overwrites
`task.dataset` for the regression task family, `task.env` for the control
task family, and raises a `ValueError` for any other family. -/
def applyBenchmark (config : Config) (benchmark : Option String) :
    Except String Config :=
  match benchmark with
  | none => .ok config
  | some b =>
    if config.task.task_type = "regression" then
      .ok { config with task := { config.task with dataset := some b } }
    else if config.task.task_type = "control" then
      .ok { config with task := { config.task with env := some b } }
    else
      .error ("--b is not supported for task " ++ config.task.task_type ++ ".")

/-- Command-line seed override (`run.py` lines 66-70): overwrites
`experiment.seed` when given, warning when a config seed is replaced. -/
def applySeedOverride (config : Config) (seed : Option Int) : Config × Bool :=
  match seed with
  | none => (config, false)
  | some s =>
    ({ config with experiment := { config.experiment with seed := some s } },
     config.experiment.seed.isSome)

/-- `run.py` lines 72-78: record the starting seed, the reproduction command
and the shared timestamp into the base config before plan construction. -/
def stampConfig (config : Config) (cmd timestamp : String) : Config :=
  { config with experiment :=
      { config.experiment with
          starting_seed := config.experiment.seed
          cmd := some cmd
          timestamp := some timestamp } }

/-- Worker-count resolution (`run.py` lines 81-85): `-1` means the host's
cpu count, then any value exceeding `runs` is clamped down to `runs` with a
printed warning. Returns the resolved count and whether the clamp warning
was printed. -/
def resolveCores (n_cores_task runs cpuCount : Int) : Int × Bool :=
  let n1 := if n_cores_task = -1 then cpuCount else n_cores_task
  if n1 > runs then (runs, true) else (n1, false)

/-- Parallel-safety corrections (`run.py` lines 86-91): with more than one
task-level worker, force `verbose` off and `n_cores_batch` to 1, each with a
printed warning. Returns the corrected config and the two warning flags. -/
def fixParallel (config : Config) (n_cores_task : Int) :
    Config × Bool × Bool :=
  let p1 :=
    if config.training.verbose ∧ n_cores_task > 1 then
      ({ config with training := { config.training with verbose := false } },
       true)
    else (config, false)
  let p2 :=
    if p1.1.training.n_cores_batch ≠ 1 ∧ n_cores_task > 1 then
      ({ p1.1 with training := { p1.1.training with n_cores_batch := 1 } },
       true)
    else (p1.1, false)
  (p2.1, p1.2, p2.2)

/-- Seed plan construction (`run.py` lines 94-96): deep-copy the base config
`runs` times and add the replicate index to each copy's seed. When the seed
is still `None`, Python's `config["experiment"]["seed"] += i` raises a
`TypeError` on the first iteration; with `runs = 0` the loop body never runs
and the empty plan is produced. -/
def buildSeedPlan (config : Config) (runs : Nat) :
    Except String (List Config) :=
  match config.experiment.seed with
  | none =>
    if runs = 0 then .ok []
    else .error "TypeError: unsupported operand types for += (NoneType and int)"
  | some s =>
    .ok ((List.range runs).map (fun (i : Nat) =>
      { config with experiment :=
          { config.experiment with seed := some (s + (i : Int)) } }))

/-- The configuration-preparation phase of `main` (`run.py` lines 50-96),
everything before any replicate is dispatched: benchmark routing, seed
override, stamping, worker-count resolution, parallel-safety corrections
and seed-plan construction. Returns the plan, the resolved worker count and
the warnings printed. -/
def prepare (args : CliArgs) (config : Config) (cpuCount : Int)
    (cmd timestamp : String) :
    Except String (List Config × Int × List Warning) :=
  match applyBenchmark config args.benchmark with
  | .error e => .error e
  | .ok c1 =>
    let s1 := applySeedOverride c1 args.seed
    let c3 := stampConfig s1.1 cmd timestamp
    let r1 := resolveCores args.n_cores_task args.runs cpuCount
    let f1 := fixParallel c3 r1.1
    match buildSeedPlan f1.1 args.runs.toNat with
    | .error e => .error e
    | .ok plan =>
      .ok (plan, r1.1,
        (if s1.2 then [Warning.overwriteSeed] else []) ++
        (if r1.2 then [Warning.clampCores] else []) ++
        (if f1.2.1 then [Warning.forceVerboseOff] else []) ++
        (if f1.2.2 then [Warning.forceSingleBatch] else []))

/-- One physical line of the summary sink: the CSV header or one replicate's
data row. -/
inductive Row where
  | header : Row
  | data : ResultRec → Row
deriving DecidableEq

/-- The on-disk state of the summary sink: `none` when the file does not
exist, otherwise its lines in order. -/
abbrev FileState := Option (List Row)

/-- One aggregator append (`run.py` lines 104 and 109):
`to_csv(summary_path, header=not os.path.exists(summary_path), mode='a')`
writes the header exactly when the file does not yet exist, then appends the
single data row. -/
def appendSummary (fs : FileState) (r : ResultRec) : FileState :=
  match fs with
  | none => some [Row.header, Row.data r]
  | some rows => some (rows ++ [Row.data r])

/-- Number of header rows in the sink. -/
def headerCount (fs : FileState) : Nat :=
  match fs with
  | none => 0
  | some rows => rows.countP (fun r => match r with | Row.header => true | _ => false)

/-- The data rows of the sink, in file order. -/
def dataRows (fs : FileState) : List ResultRec :=
  match fs with
  | none => []
  | some rows => rows.filterMap (fun r => match r with
      | Row.header => none
      | Row.data x => some x)

/-- Number of data rows in the sink. -/
def dataCount (fs : FileState) : Nat := (dataRows fs).length

/-- The dispatch loop of `main` (`run.py` lines 102-111), parametrized by
the opaque training call and by the order in which completions arrive
(submission order when serial, any permutation of the plan when parallel).
Each completed result is appended to the sink before the next completion is
consumed; a raising training call aborts the loop and propagates. Returns
the configs whose training call was consumed, the final sink state
(appended rows stay on disk: no rollback), and the propagated failure. -/
def coordinate (train : Config → Except String ResultRec) :
    List Config → FileState → List Config × FileState × Option String
  | [], fs => ([], fs, none)
  | c :: cs, fs =>
    match train c with
    | .error e => ([c], fs, some e)
    | .ok r =>
      let rest := coordinate train cs (appendSummary fs r)
      (c :: rest.1, rest.2.1, rest.2.2)

/-- The whole of `main`: preparation, then dispatch of the plan in the
completion order `sched plan` starting from a nonexistent sink. A
configuration error during preparation aborts before any replicate is
launched: no config is executed and no sink is created. -/
def fullRun (train : Config → Except String ResultRec)
    (sched : List Config → List Config)
    (args : CliArgs) (config : Config) (cpuCount : Int)
    (cmd timestamp : String) :
    List Config × FileState × Option String :=
  match prepare args config cpuCount cmd timestamp with
  | .error e => ([], none, some e)
  | .ok out => coordinate train (sched out.1) none

/-- Python dict read `d.get(k)`: the value bound to `k`, if present. A
Python dict binds each key at most once, so first-match lookup is exact. -/
def getVal (r : ResultRec) (k : String) : Option Value :=
  match r with
  | [] => none
  | p :: rest => if p.1 = k then some p.2 else getVal rest k

/-- Python dict assignment `d[k] = v`: replace the binding in place when the
key is present, otherwise append it at the end (Python dicts preserve
insertion order). -/
def setKey (r : ResultRec) (k : String) (v : Value) : ResultRec :=
  match r with
  | [] => [(k, v)]
  | p :: rest => if p.1 = k then (k, v) :: rest else p :: setKey rest k v

/-- Python `d.pop(k)` removes the binding for `k`; the caller must first
check presence, since `pop` without a default raises `KeyError`. -/
def eraseKey (r : ResultRec) (k : String) : ResultRec :=
  r.filter (fun p => p.1 ≠ k)

/-- The replicate executor's result post-processing (`train_dso`,
`run.py` lines 29-38): set `result["t"]` to the measured elapsed time, then
`result.pop("program")` — which raises `KeyError` when the training result
carries no `program` field. `elapsed` is the measured wall-clock duration
of the training call. -/
def trainDso (trainResult : ResultRec) (elapsed : Value) :
    Except String ResultRec :=
  let r1 := setKey trainResult "t" elapsed
  if (getVal r1 "program").isSome then
    .ok (eraseKey r1 "program")
  else
    .error "KeyError: program"

/-! ### Concrete instances used to exercise the embedding -/

/-- A concrete regression-task configuration. -/
def sampleConfig : Config :=
  { task := { task_type := "regression", dataset := some "Nguyen-1", env := none }
    experiment := { seed := some 100, starting_seed := none, cmd := none,
                    timestamp := none }
    training := { verbose := true, n_cores_batch := 2 } }

/-- A concrete configuration whose task family supports no benchmark
override. -/
def otherConfig : Config :=
  { sampleConfig with task := { task_type := "gp", dataset := none, env := none } }

/-- A concrete configuration with no seed established. -/
def noSeedConfig : Config :=
  { sampleConfig with experiment := { seed := none, starting_seed := none,
                                      cmd := none, timestamp := none } }

/-- A concrete training stub that always succeeds. -/
def sampleTrain : Config → Except String ResultRec :=
  fun _ => .ok [("r", Value.num 1), ("expression", Value.str "x")]

/-- A concrete training stub that fails exactly on the replicate with
seed 101. -/
def failTrain : Config → Except String ResultRec :=
  fun c => if c.experiment.seed = some 101 then .error "boom"
           else .ok [("r", Value.num 1)]

/-- Concrete CLI arguments: 2 runs on 2 task-level cores. -/
def sampleArgs : CliArgs :=
  { runs := 2, n_cores_task := 2, seed := none, benchmark := none }

/-- The replicate configuration that `prepare sampleArgs sampleConfig 4
"c" "t"` derives for seed `s`: stamped and parallel-corrected. -/
def stampedConfig (s : Int) : Config :=
  { task := sampleConfig.task
    experiment := { seed := some s, starting_seed := some 100,
                    cmd := some "c", timestamp := some "t" }
    training := { verbose := false, n_cores_batch := 1 } }

/-! ### Helper lemmas: result records -/

theorem getVal_setKey_self (r : ResultRec) (k : String) (v : Value) :
    getVal (setKey r k v) k = some v := by
  induction r with
  | nil => simp [setKey, getVal]
  | cons p rest ih =>
    by_cases hp : p.1 = k
    · simp [setKey, getVal, hp]
    · simp [setKey, getVal, hp, ih]

theorem getVal_setKey_ne (r : ResultRec) (k k' : String) (v : Value)
    (h : k' ≠ k) : getVal (setKey r k v) k' = getVal r k' := by
  induction r with
  | nil => simp [setKey, getVal, Ne.symm h]
  | cons p rest ih =>
    by_cases hp : p.1 = k
    · simp [setKey, getVal, hp, Ne.symm h]
    · by_cases hp' : p.1 = k'
      · simp [setKey, getVal, hp, hp', h]
      · simp [setKey, getVal, hp, hp', ih]

theorem getVal_eraseKey_self (r : ResultRec) (k : String) :
    getVal (eraseKey r k) k = none := by
  induction r with
  | nil => simp [eraseKey, getVal]
  | cons p rest ih =>
    by_cases hp : p.1 = k
    · simpa [eraseKey, List.filter_cons, hp, getVal] using ih
    · simpa [eraseKey, List.filter_cons, hp, getVal] using ih

theorem getVal_eraseKey_ne (r : ResultRec) (k k' : String) (h : k' ≠ k) :
    getVal (eraseKey r k) k' = getVal r k' := by
  induction r with
  | nil => simp [eraseKey, getVal]
  | cons p rest ih =>
    by_cases hp : p.1 = k
    · have e1 : eraseKey (p :: rest) k = eraseKey rest k := by
        simp [eraseKey, List.filter_cons, hp]
      have e2 : getVal (p :: rest) k' = getVal rest k' := by
        simp [getVal, hp, Ne.symm h]
      rw [e1, e2, ih]
    · have e1 : eraseKey (p :: rest) k = p :: eraseKey rest k := by
        simp [eraseKey, List.filter_cons, hp]
      by_cases hp' : p.1 = k'
      · rw [e1]; simp [getVal, hp']
      · rw [e1]; simp [getVal, hp', ih]

/-! ### Helper lemmas: the summary sink -/

theorem dataRows_appendSummary (fs : FileState) (r : ResultRec) :
    dataRows (appendSummary fs r) = dataRows fs ++ [r] := by
  cases fs <;> simp [appendSummary, dataRows]

theorem headerCount_appendSummary (fs : FileState) (r : ResultRec) :
    headerCount (appendSummary fs r) =
      match fs with | none => 1 | some _ => headerCount fs := by
  cases fs <;> simp [appendSummary, headerCount]

theorem foldl_appendSummary_some (rs : List ResultRec) (rows : List Row) :
    rs.foldl appendSummary (some rows) = some (rows ++ rs.map Row.data) := by
  induction rs generalizing rows with
  | nil => simp
  | cons r rest ih => simp [appendSummary, ih]

theorem countP_data_map (rs : List ResultRec) :
    (rs.map Row.data).countP
      (fun r => match r with | Row.header => true | _ => false) = 0 := by
  induction rs with
  | nil => rfl
  | cons a l ih => simp [List.countP_cons, ih]

theorem filterMap_data_map (rs : List ResultRec) :
    (rs.map Row.data).filterMap
      (fun r => match r with | Row.header => none | Row.data x => some x) =
      rs := by
  induction rs with
  | nil => rfl
  | cons a l ih => simp [ih]

/-! ### Helper lemmas: the dispatch loop -/

theorem coordinate_ok (train : Config → Except String ResultRec) :
    ∀ (l : List Config) (fs : FileState), (∀ c ∈ l, (train c).isOk) →
      (coordinate train l fs).1 = l ∧
      (coordinate train l fs).2.2 = none ∧
      dataRows (coordinate train l fs).2.1 =
        dataRows fs ++ l.filterMap (fun c => (train c).toOption)
  | [], fs, _ => by simp [coordinate]
  | c :: cs, fs, hok => by
    have hc : (train c).isOk := hok c (by simp)
    obtain ⟨r, hr⟩ : ∃ r, train c = .ok r := by
      cases htr : train c with
      | ok r => exact ⟨r, rfl⟩
      | error e => rw [htr] at hc; simp [Except.isOk, Except.toBool] at hc
    have ih := coordinate_ok train cs (appendSummary fs r)
      (fun x hx => hok x (by simp [hx]))
    simp only [coordinate, hr]
    refine ⟨by simp [ih.1], by simp [ih.2.1], ?_⟩
    simp [ih.2.2, dataRows_appendSummary, hr, Except.toOption]

theorem coordinate_fail (train : Config → Except String ResultRec) :
    ∀ (order : List Config) (k : Nat) (fs : FileState) (e : String)
      (hk : k < order.length),
      train (order.get ⟨k, hk⟩) = .error e →
      (∀ j, (hj : j < k) → (train (order.get ⟨j, hj.trans hk⟩)).isOk) →
      ∃ fs', coordinate train order fs = (order.take (k + 1), fs', some e) ∧
        dataRows fs' = dataRows fs ++
          (order.take k).filterMap (fun c => (train c).toOption)
  | [], k, fs, e, hk, _, _ => absurd hk (by simp)
  | c :: cs, 0, fs, e, hk, hfail, _ => by
    have hf : train c = .error e := hfail
    refine ⟨fs, ?_, by simp⟩
    simp [coordinate, hf]
  | c :: cs, k + 1, fs, e, hk, hfail, hok => by
    have hc : (train c).isOk := hok 0 (Nat.succ_pos k)
    obtain ⟨r, hr⟩ : ∃ r, train c = .ok r := by
      cases htr : train c with
      | ok r => exact ⟨r, rfl⟩
      | error e2 => rw [htr] at hc; simp [Except.isOk, Except.toBool] at hc
    have hk' : k < cs.length := Nat.lt_of_succ_lt_succ hk
    have hfail' : train (cs.get ⟨k, hk'⟩) = .error e := hfail
    have hok' : ∀ j, (hj : j < k) →
        (train (cs.get ⟨j, hj.trans hk'⟩)).isOk :=
      fun j hj => hok (j + 1) (Nat.succ_lt_succ hj)
    obtain ⟨fs', hco, hrows⟩ :=
      coordinate_fail train cs k (appendSummary fs r) e hk' hfail' hok'
    refine ⟨fs', ?_, ?_⟩
    · simp [coordinate, hr, hco]
    · rw [hrows, dataRows_appendSummary]
      simp [hr, Except.toOption, List.filterMap_cons]

theorem filterMap_toOption_length (train : Config → Except String ResultRec) :
    ∀ (l : List Config), (∀ c ∈ l, (train c).isOk) →
      (l.filterMap (fun c => (train c).toOption)).length = l.length
  | [], _ => by simp
  | c :: cs, hok => by
    have hc : (train c).isOk := hok c (by simp)
    obtain ⟨r, hr⟩ : ∃ r, train c = .ok r := by
      cases htr : train c with
      | ok r => exact ⟨r, rfl⟩
      | error e => rw [htr] at hc; simp [Except.isOk, Except.toBool] at hc
    have ih := filterMap_toOption_length train cs (fun x hx => hok x (by simp [hx]))
    rw [List.filterMap_cons]
    simp [hr, Except.toOption, ih]
    intro a ha
    have h2 := hok a (by simp [ha])
    cases htr : train a with
    | ok r2 => simp
    | error e2 => rw [htr] at h2; simp [Except.isOk, Except.toBool] at h2

/-! ### Helper lemmas: the preparation pipeline -/

theorem applyBenchmark_ok_fields (config : Config) (b : Option String)
    (c' : Config) (h : applyBenchmark config b = .ok c') :
    c'.experiment = config.experiment ∧ c'.training = config.training := by
  cases b with
  | none =>
    simp [applyBenchmark] at h
    subst h
    exact ⟨rfl, rfl⟩
  | some s =>
    by_cases h1 : config.task.task_type = "regression"
    · simp [applyBenchmark, h1] at h
      subst h
      exact ⟨rfl, rfl⟩
    · by_cases h2 : config.task.task_type = "control"
      · simp [applyBenchmark, h1, h2] at h
        subst h
        exact ⟨rfl, rfl⟩
      · simp [applyBenchmark, h1, h2] at h

theorem applySeedOverride_fields (config : Config) (s : Option Int) :
    (applySeedOverride config s).1.task = config.task ∧
    (applySeedOverride config s).1.training = config.training := by
  cases s <;> simp [applySeedOverride]

theorem stampConfig_fields (config : Config) (cmd ts : String) :
    (stampConfig config cmd ts).task = config.task ∧
    (stampConfig config cmd ts).training = config.training ∧
    (stampConfig config cmd ts).experiment.seed = config.experiment.seed := by
  simp [stampConfig]

theorem fixParallel_le_one (config : Config) (n : Int) (h : ¬1 < n) :
    fixParallel config n = (config, false, false) := by
  simp [fixParallel, h]

theorem fixParallel_gt_one (config : Config) (n : Int) (h : 1 < n) :
    (fixParallel config n).1.task = config.task ∧
    (fixParallel config n).1.experiment = config.experiment ∧
    (fixParallel config n).1.training.verbose = false ∧
    (fixParallel config n).1.training.n_cores_batch = 1 ∧
    (fixParallel config n).2.1 = config.training.verbose ∧
    (fixParallel config n).2.2 = decide (config.training.n_cores_batch ≠ 1) := by
  by_cases hv : config.training.verbose = true <;>
    by_cases hb : config.training.n_cores_batch = 1 <;>
      simp [fixParallel, h, hv, hb]

theorem fixParallel_fields (config : Config) (n : Int) :
    (fixParallel config n).1.task = config.task ∧
    (fixParallel config n).1.experiment = config.experiment := by
  by_cases h : 1 < n
  · exact ⟨(fixParallel_gt_one config n h).1, (fixParallel_gt_one config n h).2.1⟩
  · simp [fixParallel_le_one config n h]

theorem buildSeedPlan_some (config : Config) (s : Int) (runs : Nat)
    (h : config.experiment.seed = some s) :
    buildSeedPlan config runs =
      .ok ((List.range runs).map (fun (i : Nat) =>
        { config with experiment :=
            { config.experiment with seed := some (s + (i : Int)) } })) := by
  simp [buildSeedPlan, h]

theorem buildSeedPlan_none (config : Config) (runs : Nat)
    (h : config.experiment.seed = none) (hruns : runs ≠ 0) :
    buildSeedPlan config runs =
      .error "TypeError: unsupported operand types for += (NoneType and int)" := by
  simp [buildSeedPlan, h, hruns]

theorem buildSeedPlan_mem (config : Config) (runs : Nat) (plan : List Config)
    (h : buildSeedPlan config runs = .ok plan) :
    ∀ c ∈ plan, c.task = config.task ∧ c.training = config.training := by
  cases hs : config.experiment.seed with
  | none =>
    by_cases hr : runs = 0
    · simp [buildSeedPlan, hs, hr] at h
      subst h
      simp
    · simp [buildSeedPlan, hs, hr] at h
  | some s =>
    rw [buildSeedPlan_some config s runs hs] at h
    simp at h
    subst h
    intro c hc
    simp [List.mem_map] at hc
    obtain ⟨i, _, hi⟩ := hc
    subst hi
    exact ⟨rfl, rfl⟩

theorem prepare_ok_elim (args : CliArgs) (config : Config) (cpuCount : Int)
    (cmd ts : String) (plan : List Config) (cores : Int) (warns : List Warning)
    (h : prepare args config cpuCount cmd ts = .ok (plan, cores, warns)) :
    ∃ c1, applyBenchmark config args.benchmark = .ok c1 ∧
      cores = (resolveCores args.n_cores_task args.runs cpuCount).1 ∧
      buildSeedPlan
        (fixParallel (stampConfig (applySeedOverride c1 args.seed).1 cmd ts)
          cores).1 args.runs.toNat = .ok plan ∧
      warns =
        (if (applySeedOverride c1 args.seed).2 then [Warning.overwriteSeed]
          else []) ++
        (if (resolveCores args.n_cores_task args.runs cpuCount).2 then
          [Warning.clampCores] else []) ++
        (if (fixParallel (stampConfig (applySeedOverride c1 args.seed).1 cmd ts)
            cores).2.1 then [Warning.forceVerboseOff] else []) ++
        (if (fixParallel (stampConfig (applySeedOverride c1 args.seed).1 cmd ts)
            cores).2.2 then [Warning.forceSingleBatch] else []) := by
  cases hb : applyBenchmark config args.benchmark with
  | error e =>
    simp only [prepare] at h
    rw [hb] at h
    simp at h
  | ok c1 =>
    simp only [prepare] at h
    rw [hb] at h
    simp only at h
    cases hp : buildSeedPlan
        (fixParallel (stampConfig (applySeedOverride c1 args.seed).1 cmd ts)
          (resolveCores args.n_cores_task args.runs cpuCount).1).1
        args.runs.toNat with
    | error e =>
      rw [hp] at h
      simp at h
    | ok plan' =>
      rw [hp] at h
      simp only [Except.ok.injEq, Prod.mk.injEq] at h
      obtain ⟨h1, h2, h3⟩ := h
      subst h1
      subst h2
      subst h3
      exact ⟨c1, rfl, rfl, hp, rfl⟩

theorem fullRun_of_prepare_ok (train : Config → Except String ResultRec)
    (sched : List Config → List Config) (args : CliArgs) (config : Config)
    (cpuCount : Int) (cmd ts : String) (plan : List Config) (cores : Int)
    (warns : List Warning)
    (h : prepare args config cpuCount cmd ts = .ok (plan, cores, warns)) :
    fullRun train sched args config cpuCount cmd ts =
      coordinate train (sched plan) none := by
  unfold fullRun
  rw [h]

theorem fullRun_of_prepare_error (train : Config → Except String ResultRec)
    (sched : List Config → List Config) (args : CliArgs) (config : Config)
    (cpuCount : Int) (cmd ts : String) (e : String)
    (h : prepare args config cpuCount cmd ts = .error e) :
    fullRun train sched args config cpuCount cmd ts = ([], none, some e) := by
  unfold fullRun
  rw [h]

/-! ### Claim theorems -/

/-- C1: for every number of replicates `runs` and every integer base seed
`s` established in the configuration, building the seed plan produces
exactly `runs` configurations whose experiment seeds are `s + i` for each
replicate's zero-based index `i` (that is, `s, s+1, ..., s+runs-1`), and
each configuration is otherwise identical to the base configuration. -/
theorem seed_plan_offsets (config : Config) (s : Int) (runs : Nat)
    (h : config.experiment.seed = some s) :
    ∃ plan, buildSeedPlan config runs = .ok plan ∧ plan.length = runs ∧
      ∀ i, (hi : i < plan.length) → plan.get ⟨i, hi⟩ =
        { config with experiment :=
            { config.experiment with seed := some (s + (i : Int)) } } := by
  refine ⟨_, buildSeedPlan_some config s runs h, by simp, ?_⟩
  intro i hi
  simp only [List.get_eq_getElem, List.getElem_map, List.getElem_range]

/-- Witness for C1: the sample config with seed 100 and 3 replicates. -/
theorem seed_plan_offsets_witness :
    ∃ plan, buildSeedPlan sampleConfig 3 = .ok plan ∧ plan.length = 3 ∧
      ∀ i, (hi : i < plan.length) → plan.get ⟨i, hi⟩ =
        { sampleConfig with experiment :=
            { sampleConfig.experiment with seed := some (100 + (i : Int)) } } :=
  seed_plan_offsets sampleConfig 100 3 rfl

/-- C4: requesting `n_cores_task = -1` resolves to
`min(available parallelism, runs)`; requesting any other value greater than
`runs` is corrected down to `runs` with the warning flag set; and the
resolved worker count never exceeds `runs`. -/
theorem worker_count_resolution (req runs cpuCount : Int) :
    (resolveCores (-1) runs cpuCount).1 = min cpuCount runs ∧
    (req ≠ -1 → runs < req → resolveCores req runs cpuCount = (runs, true)) ∧
    (resolveCores req runs cpuCount).1 ≤ runs := by
  refine ⟨?_, ?_, ?_⟩
  · simp only [resolveCores, if_pos rfl]
    split_ifs with h1 <;> simp <;> omega
  · intro h1 h2
    simp only [resolveCores, if_neg h1]
    rw [if_pos h2]
  · simp only [resolveCores]
    split_ifs <;> simp <;> omega

/-- Witness for C4: requesting 5 workers for 2 replicates is clamped to 2
with the warning flag set. -/
theorem worker_count_resolution_witness :
    resolveCores 5 2 8 = (2, true) :=
  (worker_count_resolution 5 2 8).2.1 (by decide) (by decide)

/-- C5: with a benchmark override, the regression family overrides only
`task.dataset` (leaving `task.env` untouched), the control family overrides
only `task.env`, and any other family makes the whole run fail with the
`ValueError` before any replicate is launched: nothing is executed and no
sink is created. -/
theorem benchmark_override_routing (config : Config) (b : String) :
    (config.task.task_type = "regression" →
      applyBenchmark config (some b) =
        .ok { config with task := { config.task with dataset := some b } }) ∧
    (config.task.task_type = "control" →
      applyBenchmark config (some b) =
        .ok { config with task := { config.task with env := some b } }) ∧
    (config.task.task_type ≠ "regression" → config.task.task_type ≠ "control" →
      ∀ (train : Config → Except String ResultRec)
        (sched : List Config → List Config) (args : CliArgs)
        (cpuCount : Int) (cmd ts : String), args.benchmark = some b →
        fullRun train sched args config cpuCount cmd ts =
          ([], none,
           some ("--b is not supported for task " ++
             config.task.task_type ++ "."))) := by
  refine ⟨?_, ?_, ?_⟩
  · intro h1
    simp [applyBenchmark, h1]
  · intro h2
    by_cases h1 : config.task.task_type = "regression"
    · rw [h2] at h1
      simp at h1
    · simp [applyBenchmark, h1, h2]
  · intro h1 h2 train sched args cpuCount cmd ts hb
    apply fullRun_of_prepare_error
    simp only [prepare]
    rw [hb]
    simp [applyBenchmark, h1, h2]

/-- Witness for C5: the regression sample config routes to the dataset
field, and a `gp`-family config aborts the whole run before dispatch. -/
theorem benchmark_override_routing_witness :
    applyBenchmark sampleConfig (some "Nguyen-2") =
      .ok { sampleConfig with task :=
        { sampleConfig.task with dataset := some "Nguyen-2" } } ∧
    fullRun sampleTrain id { sampleArgs with benchmark := some "Nguyen-2" }
        otherConfig 4 "c" "t" =
      ([], none,
       some ("--b is not supported for task " ++
         otherConfig.task.task_type ++ ".")) :=
  ⟨(benchmark_override_routing sampleConfig "Nguyen-2").1 rfl,
   (benchmark_override_routing otherConfig "Nguyen-2").2.2 (by decide)
     (by decide) sampleTrain id
     { sampleArgs with benchmark := some "Nguyen-2" } 4 "c" "t" rfl⟩

/-- C6 counterexample: a training result without a `program` field makes the
executor raise `KeyError` instead of producing an output record, refuting
the claim that the executor's output always exists with a `t` field and no
`program` field for program-free training results. -/
theorem executor_program_counterexample :
    ¬ ∃ out, trainDso [("r", Value.num 0)] (Value.num 5) = .ok out ∧
      getVal out "t" = some (Value.num 5) ∧ getVal out "program" = none := by
  rintro ⟨out, hout, -⟩
  rw [show trainDso [("r", Value.num 0)] (Value.num 5) =
      .error "KeyError: program" from by
        simp [trainDso, setKey, getVal]] at hout
  cases hout

/-- C6 (amended): for every training result that carries a `program` field,
the executor's output record exists, holds the measured elapsed time under
the `t` key, and no longer holds a `program` field. For a `program`-free
training result the executor raises `KeyError` instead. -/
theorem executor_time_and_program (r : ResultRec) (elapsed : Value)
    (hp : (getVal r "program").isSome) :
    ∃ out, trainDso r elapsed = .ok out ∧
      getVal out "t" = some elapsed ∧ getVal out "program" = none := by
  have hne : ("program" : String) ≠ "t" := by decide
  have h1 : getVal (setKey r "t" elapsed) "program" = getVal r "program" :=
    getVal_setKey_ne r "t" "program" elapsed hne
  refine ⟨eraseKey (setKey r "t" elapsed) "program", ?_, ?_, ?_⟩
  · simp only [trainDso]
    rw [if_pos (by rw [h1]; exact hp)]
  · rw [getVal_eraseKey_ne _ "program" "t" (by decide)]
    exact getVal_setKey_self r "t" elapsed
  · exact getVal_eraseKey_self _ "program"

/-- Witness for C6 (amended): a program-bearing training result. -/
theorem executor_time_and_program_witness :
    ∃ out, trainDso [("r", Value.num 0), ("program", Value.prog)]
        (Value.num 5) = .ok out ∧
      getVal out "t" = some (Value.num 5) ∧ getVal out "program" = none :=
  executor_time_and_program [("r", Value.num 0), ("program", Value.prog)]
    (Value.num 5) (by decide)

/-- C3: starting from a nonexistent file, any nonempty sequence of appends
leaves exactly one header row (written by the first append, when the file
does not yet exist) and one data row per append; and an append to an
already-existing file — whichever process lifetime created it — rewrites no
header and adds exactly one data row. -/
theorem summary_sink_header_and_rows (results : List ResultRec)
    (fs : FileState) (r : ResultRec) (hne : results ≠ []) (hex : fs ≠ none) :
    headerCount (results.foldl appendSummary none) = 1 ∧
    dataCount (results.foldl appendSummary none) = results.length ∧
    headerCount (appendSummary fs r) = headerCount fs ∧
    dataCount (appendSummary fs r) = dataCount fs + 1 := by
  obtain ⟨r0, rest, rfl⟩ : ∃ r0 rest, results = r0 :: rest := by
    cases results with
    | nil => exact absurd rfl hne
    | cons a l => exact ⟨a, l, rfl⟩
  obtain ⟨rows, rfl⟩ : ∃ rows, fs = some rows := by
    cases fs with
    | none => exact absurd rfl hex
    | some rows => exact ⟨rows, rfl⟩
  refine ⟨?_, ?_, ?_, ?_⟩
  · rw [List.foldl_cons,
      show appendSummary none r0 = some [Row.header, Row.data r0] from rfl,
      foldl_appendSummary_some]
    simp [headerCount, List.countP_append, countP_data_map, List.countP_cons]
  · rw [List.foldl_cons,
      show appendSummary none r0 = some [Row.header, Row.data r0] from rfl,
      foldl_appendSummary_some]
    simp [dataCount, dataRows, List.filterMap_append, filterMap_data_map]
  · rw [headerCount_appendSummary]
  · rw [dataCount, dataCount, dataRows_appendSummary]
    simp

/-- Witness for C3: two appends onto a fresh sink, and one append onto an
existing one-header file. -/
theorem summary_sink_header_and_rows_witness :
    headerCount ([[("r", Value.num 1)], [("r", Value.num 2)]].foldl
      appendSummary none) = 1 ∧
    dataCount ([[("r", Value.num 1)], [("r", Value.num 2)]].foldl
      appendSummary none) = [[("r", Value.num 1)], [("r", Value.num 2)]].length ∧
    headerCount (appendSummary (some [Row.header]) [("r", Value.num 3)]) =
      headerCount (some [Row.header]) ∧
    dataCount (appendSummary (some [Row.header]) [("r", Value.num 3)]) =
      dataCount (some [Row.header]) + 1 :=
  summary_sink_header_and_rows [[("r", Value.num 1)], [("r", Value.num 2)]]
    (some [Row.header]) [("r", Value.num 3)] (by simp) (by simp)

/-- C7: whenever the resolved task-level worker count exceeds one, every
replicate configuration in the plan has verbose per-step logging off and
`n_cores_batch = 1`, and each correction that actually fired (verbose was
on; `n_cores_batch` was not 1) is accompanied by its warning — all before
any replicate copies are made, since every plan member carries the
corrected values. -/
theorem parallel_safety_corrections (args : CliArgs) (config : Config)
    (cpuCount : Int) (cmd ts : String) (plan : List Config) (cores : Int)
    (warns : List Warning)
    (hprep : prepare args config cpuCount cmd ts = .ok (plan, cores, warns))
    (hpar : 1 < cores) :
    (∀ c ∈ plan, c.training.verbose = false ∧ c.training.n_cores_batch = 1) ∧
    (config.training.verbose = true → Warning.forceVerboseOff ∈ warns) ∧
    (config.training.n_cores_batch ≠ 1 → Warning.forceSingleBatch ∈ warns) := by
  obtain ⟨c1, hb, hcores, hplan, hwarns⟩ :=
    prepare_ok_elim _ _ _ _ _ _ _ _ hprep
  have htr : (stampConfig (applySeedOverride c1 args.seed).1 cmd ts).training
      = config.training := by
    rw [(stampConfig_fields (applySeedOverride c1 args.seed).1 cmd ts).2.1,
      (applySeedOverride_fields c1 args.seed).2,
      (applyBenchmark_ok_fields config args.benchmark c1 hb).2]
  have hfix := fixParallel_gt_one
    (stampConfig (applySeedOverride c1 args.seed).1 cmd ts) cores hpar
  refine ⟨?_, ?_, ?_⟩
  · intro c hc
    have hm := buildSeedPlan_mem _ _ _ hplan c hc
    rw [hm.2]
    exact ⟨hfix.2.2.1, hfix.2.2.2.1⟩
  · intro hv
    subst hwarns
    have : (fixParallel (stampConfig (applySeedOverride c1 args.seed).1 cmd ts)
        cores).2.1 = true := by
      rw [hfix.2.2.2.2.1, htr, hv]
    simp [this]
  · intro hbatch
    subst hwarns
    have : (fixParallel (stampConfig (applySeedOverride c1 args.seed).1 cmd ts)
        cores).2.2 = true := by
      rw [hfix.2.2.2.2.2]
      simp only [htr]
      simpa using hbatch
    simp [this]

/-- Witness for C7: the sample run (2 replicates on 2 workers, verbose on,
`n_cores_batch = 2`) forces both corrections into every replicate config
with both warnings. -/
theorem parallel_safety_corrections_witness :
    (∀ c ∈ [stampedConfig 100, stampedConfig 101],
      c.training.verbose = false ∧ c.training.n_cores_batch = 1) ∧
    (sampleConfig.training.verbose = true →
      Warning.forceVerboseOff ∈
        [Warning.forceVerboseOff, Warning.forceSingleBatch]) ∧
    (sampleConfig.training.n_cores_batch ≠ 1 →
      Warning.forceSingleBatch ∈
        [Warning.forceVerboseOff, Warning.forceSingleBatch]) :=
  parallel_safety_corrections sampleArgs sampleConfig 4 "c" "t"
    [stampedConfig 100, stampedConfig 101] 2
    [Warning.forceVerboseOff, Warning.forceSingleBatch]
    (by decide) (by decide)

/-- C10: the clamp of `n_cores_task` down to `runs` precedes the
parallel-safety corrections: with `runs = 1` and any requested
`n_cores_task`, the resolved worker count is at most 1, neither
parallel-safety warning is emitted, and every replicate configuration keeps
the base training settings (verbose and `n_cores_batch`) unchanged. -/
theorem clamp_precedes_safety (args : CliArgs) (config : Config)
    (cpuCount : Int) (cmd ts : String) (plan : List Config) (cores : Int)
    (warns : List Warning)
    (hprep : prepare args config cpuCount cmd ts = .ok (plan, cores, warns))
    (hruns : args.runs = 1) :
    cores ≤ 1 ∧
    Warning.forceVerboseOff ∉ warns ∧
    Warning.forceSingleBatch ∉ warns ∧
    ∀ c ∈ plan, c.training = config.training := by
  obtain ⟨c1, hb, hcores, hplan, hwarns⟩ :=
    prepare_ok_elim _ _ _ _ _ _ _ _ hprep
  have hle : cores ≤ 1 := by
    rw [hcores]
    simp only [resolveCores, hruns]
    split_ifs <;> simp <;> omega
  have hnf := fixParallel_le_one
    (stampConfig (applySeedOverride c1 args.seed).1 cmd ts) cores
    (by omega)
  have htr : (stampConfig (applySeedOverride c1 args.seed).1 cmd ts).training
      = config.training := by
    rw [(stampConfig_fields (applySeedOverride c1 args.seed).1 cmd ts).2.1,
      (applySeedOverride_fields c1 args.seed).2,
      (applyBenchmark_ok_fields config args.benchmark c1 hb).2]
  refine ⟨hle, ?_, ?_, ?_⟩
  · subst hwarns
    simp [hnf]
  · subst hwarns
    simp [hnf]
  · intro c hc
    have hm := buildSeedPlan_mem _ _ _ hplan c hc
    rw [hm.2, hnf, htr]

/-- Witness for C10: a single replicate requested on 8 workers leaves the
training settings untouched. -/
theorem clamp_precedes_safety_witness :
    (1 : Int) ≤ 1 ∧
    Warning.forceVerboseOff ∉ [Warning.clampCores] ∧
    Warning.forceSingleBatch ∉ [Warning.clampCores] ∧
    ∀ c ∈ [{ sampleConfig with experiment :=
        { seed := some 100, starting_seed := some 100,
          cmd := some "c", timestamp := some "t" } }],
      c.training = sampleConfig.training :=
  clamp_precedes_safety
    { runs := 1, n_cores_task := 8, seed := none, benchmark := none }
    sampleConfig 4 "c" "t"
    [{ sampleConfig with experiment :=
        { seed := some 100, starting_seed := some 100,
          cmd := some "c", timestamp := some "t" } }]
    1 [Warning.clampCores] (by decide) rfl

/-- C2: for every completion order of the plan (any permutation — the
serial path and every worker count `1 ≤ W ≤ N` only determine which
permutation arrives) with a training call that succeeds on every replicate,
the run executes exactly the planned configurations, each exactly once, and
appends each replicate's result to the sink exactly once: the data rows are
precisely the results in completion order, `N` in total. -/
theorem replicates_executed_once (train : Config → Except String ResultRec)
    (sched : List Config → List Config) (args : CliArgs) (config : Config)
    (cpuCount : Int) (cmd ts : String) (plan : List Config) (cores : Int)
    (warns : List Warning)
    (hprep : prepare args config cpuCount cmd ts = .ok (plan, cores, warns))
    (hperm : (sched plan).Perm plan)
    (hok : ∀ c ∈ plan, (train c).isOk) :
    ∃ fs, fullRun train sched args config cpuCount cmd ts =
        (sched plan, fs, none) ∧
      dataRows fs = (sched plan).filterMap (fun c => (train c).toOption) ∧
      dataCount fs = plan.length := by
  have hok' : ∀ c ∈ sched plan, (train c).isOk :=
    fun c hc => hok c (hperm.mem_iff.mp hc)
  have h := coordinate_ok train (sched plan) none hok'
  refine ⟨(coordinate train (sched plan) none).2.1, ?_, ?_, ?_⟩
  · rw [fullRun_of_prepare_ok train sched args config cpuCount cmd ts plan
      cores warns hprep]
    calc coordinate train (sched plan) none
        = ((coordinate train (sched plan) none).1,
           (coordinate train (sched plan) none).2.1,
           (coordinate train (sched plan) none).2.2) := rfl
      _ = (sched plan, (coordinate train (sched plan) none).2.1, none) := by
          rw [h.1, h.2.1]
  · simpa using h.2.2
  · rw [dataCount, h.2.2]
    simp only [dataRows, List.nil_append]
    rw [filterMap_toOption_length train (sched plan) hok', hperm.length_eq]

/-- Witness for C2: the sample run with a reversed completion order. -/
theorem replicates_executed_once_witness :
    ∃ fs, fullRun sampleTrain List.reverse sampleArgs sampleConfig 4 "c" "t" =
        (List.reverse [stampedConfig 100, stampedConfig 101], fs, none) ∧
      dataRows fs =
        (List.reverse [stampedConfig 100, stampedConfig 101]).filterMap
          (fun c => (sampleTrain c).toOption) ∧
      dataCount fs = [stampedConfig 100, stampedConfig 101].length :=
  replicates_executed_once sampleTrain List.reverse sampleArgs sampleConfig
    4 "c" "t" [stampedConfig 100, stampedConfig 101] 2
    [Warning.forceVerboseOff, Warning.forceSingleBatch]
    (by decide) (by decide) (by decide)

/-- C8: with no integer seed established — neither in the base
configuration nor via the command-line override — and at least one
replicate requested, the run fails before any replicate is launched:
nothing is executed and no sink is created. The seed plan builder never
silently tolerates the null seed (in the source, `seed += i` raises a
`TypeError`). -/
theorem missing_seed_fails_fast (train : Config → Except String ResultRec)
    (sched : List Config → List Config) (args : CliArgs) (config : Config)
    (cpuCount : Int) (cmd ts : String)
    (hseed : config.experiment.seed = none) (hargs : args.seed = none)
    (hruns : 1 ≤ args.runs) :
    ∃ e, fullRun train sched args config cpuCount cmd ts =
      ([], none, some e) := by
  cases hb : applyBenchmark config args.benchmark with
  | error e =>
    refine ⟨e, fullRun_of_prepare_error _ _ _ _ _ _ _ _ ?_⟩
    simp [prepare, hb]
  | ok c1 =>
    have hc1 : c1.experiment.seed = none := by
      rw [(applyBenchmark_ok_fields config args.benchmark c1 hb).1]
      exact hseed
    have hs1 : (applySeedOverride c1 args.seed).1 = c1 := by
      rw [hargs]
      rfl
    have hsk : (fixParallel
        (stampConfig (applySeedOverride c1 args.seed).1 cmd ts)
        (resolveCores args.n_cores_task args.runs cpuCount).1).1.experiment.seed
        = none := by
      rw [(fixParallel_fields _ _).2, hs1,
        (stampConfig_fields c1 cmd ts).2.2, hc1]
    have hplan := buildSeedPlan_none
      (fixParallel (stampConfig (applySeedOverride c1 args.seed).1 cmd ts)
        (resolveCores args.n_cores_task args.runs cpuCount).1).1
      args.runs.toNat hsk (by omega)
    refine ⟨"TypeError: unsupported operand types for += (NoneType and int)",
      fullRun_of_prepare_error _ _ _ _ _ _ _ _ ?_⟩
    simp only [prepare]
    rw [hb]
    simp [hplan]

/-- Witness for C8: a seedless config with one requested replicate. -/
theorem missing_seed_fails_fast_witness :
    ∃ e, fullRun sampleTrain id
        { runs := 1, n_cores_task := 1, seed := none, benchmark := none }
        noSeedConfig 4 "c" "t" = ([], none, some e) :=
  missing_seed_fails_fast sampleTrain id
    { runs := 1, n_cores_task := 1, seed := none, benchmark := none }
    noSeedConfig 4 "c" "t" rfl rfl (by decide)

/-- C9: if the training call raises for the completion arriving at position
`k` (the first failure), the failure propagates through the coordinator and
aborts the whole run: no completion past `k` is consumed, no retry occurs,
the error is returned, and the sink still holds every row appended for the
`k` previously completed replicates, unchanged (no rollback). -/
theorem replicate_failure_aborts (train : Config → Except String ResultRec)
    (order : List Config) (k : Nat) (fs : FileState) (e : String)
    (hk : k < order.length)
    (hfail : train (order.get ⟨k, hk⟩) = .error e)
    (hok : ∀ j, (hj : j < k) → (train (order.get ⟨j, hj.trans hk⟩)).isOk) :
    ∃ fs', coordinate train order fs = (order.take (k + 1), fs', some e) ∧
      dataRows fs' = dataRows fs ++
        (order.take k).filterMap (fun c => (train c).toOption) :=
  coordinate_fail train order k fs e hk hfail hok

/-- Witness for C9: the second completion fails; the first replicate's row
stays in the sink and the error propagates. -/
theorem replicate_failure_aborts_witness :
    ∃ fs', coordinate failTrain [stampedConfig 100, stampedConfig 101] none =
        ([stampedConfig 100, stampedConfig 101].take 2, fs', some "boom") ∧
      dataRows fs' = dataRows none ++
        ([stampedConfig 100, stampedConfig 101].take 1).filterMap
          (fun c => (failTrain c).toOption) :=
  replicate_failure_aborts failTrain [stampedConfig 100, stampedConfig 101]
    1 none "boom" (by decide) (by decide)
    (fun j hj => by
      have hj0 : j = 0 := by omega
      subst hj0
      show (failTrain (stampedConfig 100)).isOk = true
      decide)

end DSORun
